import Mathlib

/-!
Shallow embedding of `python/cog/server/http.py`: the HTTP request pipeline
of a single-model prediction server (input collection, schema validation,
model invocation, cleanup draining, response construction, and the `/help`
schema introspection endpoint).

The validation capability (`validate_and_convert_inputs` from `..input`) and
the model runner (`run_model` from `..model`) are external collaborators of
the file under study; they are modelled as abstract function fields of the
server model.  Wall-clock timing is modelled by passing the two measured
scalars (`setup_time`, `run_time`) as rational parameters.
-/

namespace Cog

/-- A raw request value: either a form-field string or an uploaded file,
identified by an opaque handle. -/
inductive RawVal where
  | str (s : String)
  | file (f : Nat)
deriving DecidableEq, Repr

/-- A converted input value handed to the model: either a raw value passed
through unchanged (no schema declared) or an opaque typed value produced by
the external conversion capability. -/
inductive ConvVal where
  | raw (v : RawVal)
  | typed (t : Nat)
deriving DecidableEq, Repr

/-- A cleanup callback registered during conversion or invocation: an
identifier plus its outcome when called (`none` = returns normally,
`some e` = raises an exception rendered as `e`). -/
structure Cleanup where
  id : Nat
  outcome : Option String
deriving DecidableEq, Repr

/-- A JSON value, as produced by `jsonify`.  Objects are ordered key/value
lists, mirroring insertion-ordered Python dicts. -/
inductive Json where
  | null
  | bool (b : Bool)
  | num (n : Int)
  | str (s : String)
  | arr (items : List Json)
  | obj (fields : List (String × Json))

/-- An HTTP response body: raw file bytes, plain text, or JSON. -/
inductive Body where
  | bytes (bs : List Nat)
  | text (s : String)
  | json (j : Json)

/-- An HTTP response: status code, content type, body and extra headers. -/
structure HttpResponse where
  status : Nat
  contentType : String
  body : Body
  headers : List (String × String)

/-- `_abort400`: a 400 response whose JSON body is `message` under the
`message` key. -/
def abort400 (message : String) : HttpResponse :=
  { status := 400
    contentType := "application/json"
    body := Body.json (Json.obj [("message", Json.str message)])
    headers := [] }

/-- The filesystem visible to `send_file`: maps a path to the file's bytes
when the file exists and is readable. -/
def Filesystem : Type := String → Option (List Nat)

/-- The prediction result returned by the model, inspected at runtime by
`create_response`: a filesystem path, a plain string, or any other value
(serialized as JSON). -/
inductive PredResult where
  | path (p : String)
  | str (s : String)
  | other (j : Json)

/-- Python dictionary insertion `d[k] = v` on an insertion-ordered
association list: an existing key keeps its position and gets the new
value, a fresh key is appended. -/
def dictInsert {α : Type} (m : List (String × α)) (k : String) (v : α) :
    List (String × α) :=
  if m.any (fun p => p.1 = k) then
    m.map (fun p => if p.1 = k then (k, v) else p)
  else
    m ++ [(k, v)]

/-- The first loop of `handle_request`: insert every form field into the
raw-input dict as a string value. -/
def collectForm (form : List (String × String)) : List (String × RawVal) :=
  form.foldl (fun m p => dictInsert m p.1 (RawVal.str p.2)) []

/-- The second loop of `handle_request`: insert every uploaded file into the
accumulated raw-input dict, aborting with a 400 message naming the key when
the key is already present. -/
def collectFiles (m : List (String × RawVal)) :
    List (String × Nat) → Except String (List (String × RawVal))
  | [] => Except.ok m
  | (k, f) :: rest =>
      if m.any (fun p => p.1 = k) then
        Except.error ("Duplicated argument name in form and files: " ++ k)
      else
        collectFiles (dictInsert m k (RawVal.file f)) rest

/-- The input-collection phase of `handle_request`: merge form fields and
files into one raw-input dict, rejecting key collisions. -/
def collectInputs (form : List (String × String)) (files : List (String × Nat)) :
    Except String (List (String × RawVal)) :=
  collectFiles (collectForm form) files

/-- A Python value appearing in an input spec (default, bound or option),
with its `str(...)` rendering. -/
inductive PyVal where
  | str (s : String)
  | int (n : Int)
  | bool (b : Bool)
  | pynone
deriving DecidableEq, Repr

/-- Python `str(...)` on a spec value. -/
def pyStr : PyVal → String
  | PyVal.str s => s
  | PyVal.int n => toString n
  | PyVal.bool true => "True"
  | PyVal.bool false => "False"
  | PyVal.pynone => "None"

/-- The semantic type tag of an input field. -/
inductive TypeTag where
  | str
  | int
  | float
  | bool
  | path
deriving DecidableEq, Repr

/-- Modelled from the spec: `get_type_name` from the input module (not part
of the file under study) renders a field's semantic type under the schema's
own naming convention. -/
def get_type_name : TypeTag → String
  | TypeTag.str => "str"
  | TypeTag.int => "int"
  | TypeTag.float => "float"
  | TypeTag.bool => "bool"
  | TypeTag.path => "Path"

/-- One field of the declared input schema, as read by the `/help` endpoint:
`help` is `none` or a string (Python truthiness applies), `default` is
`none` exactly when it is the `UNSPECIFIED` sentinel, and `min`/`max`/
`options` are `none` exactly when they are Python `None`. -/
structure InputSpec where
  type : TypeTag
  help : Option String
  default : Option PyVal
  min : Option PyVal
  max : Option PyVal
  options : Option (List PyVal)
deriving DecidableEq, Repr

/-- The server model: whether `model.predict` carries an `_inputs` schema
(and which), the external validation capability (returning the cleanups it
registered together with either converted inputs or an
`InputValidationError` message) and the external model runner (returning the
cleanups it registered together with either a result or a raised
exception). -/
structure ServerModel where
  schema : Option (List (String × InputSpec))
  validate : List (String × RawVal) →
    List Cleanup × Except String (List (String × ConvVal))
  run : List (String × ConvVal) → List Cleanup × Except String PredResult

/-- The `finally` block of `handle_request`: call every registered cleanup
callback in registration order; a callback that raises has its error written
to stderr and the loop continues.  Returns the identifiers of the callbacks
that were called, in order, and the stderr lines written. -/
def drainCleanups : List Cleanup → List Nat × List String
  | [] => ([], [])
  | c :: rest =>
      let (ids, errs) := drainCleanups rest
      match c.outcome with
      | none => (c.id :: ids, errs)
      | some e => (c.id :: ids, ("Cleanup function caught error: " ++ e) :: errs)

/-- `send_file(str(result))`: the file's bytes as a binary download, or a
raised exception when the path does not resolve to a readable file. -/
def sendFile (fs : Filesystem) (p : String) : Except String HttpResponse :=
  match fs p with
  | some bs =>
      Except.ok
        { status := 200
          contentType := "application/octet-stream"
          body := Body.bytes bs
          headers := [] }
  | none => Except.error ("send_file: file not found: " ++ p)

/-- `resp.headers[k] = v`: append a response header. -/
def setHeader (r : HttpResponse) (k v : String) : HttpResponse :=
  { r with headers := r.headers ++ [(k, v)] }

/-- `HTTPServer.create_response`: three-way dispatch on the result's runtime
type (Path / str / anything else), then attach the two timing headers. -/
def create_response (fs : Filesystem) (result : PredResult)
    (setup_time run_time : ℚ) : Except String HttpResponse :=
  (match result with
    | PredResult.path p => sendFile fs p
    | PredResult.str s =>
        Except.ok
          { status := 200, contentType := "text/plain"
            body := Body.text s, headers := [] }
    | PredResult.other j =>
        Except.ok
          { status := 200, contentType := "application/json"
            body := Body.json j, headers := [] }).map
    (fun resp =>
      setHeader (setHeader resp "X-Setup-Time" (toString setup_time))
        "X-Run-Time" (toString run_time))

/-- Outcome and observable effects of one request: the response returned (or
the exception propagating to the framework), the cleanup callbacks that were
called, in order, and the stderr lines written. -/
structure HandlerResult where
  outcome : Except String HttpResponse
  executed : List Nat
  stderr : List String

/-- The invocation-and-response phase of `handle_request`: call `run_model`,
build the response, then drain every registered cleanup (`finally`),
regardless of whether invocation or response construction raised. -/
def runPhase (m : ServerModel) (fs : Filesystem) (setup_time run_time : ℚ)
    (registered : List Cleanup) (inputs : List (String × ConvVal)) :
    HandlerResult :=
  let (cl, rres) := m.run inputs
  let (ids, errs) := drainCleanups (registered ++ cl)
  match rres with
  | Except.error e => { outcome := Except.error e, executed := ids, stderr := errs }
  | Except.ok result =>
      { outcome := create_response fs result setup_time run_time
        executed := ids, stderr := errs }

/-- `handle_request`: collect raw inputs, validate/convert them when the
model declares a schema, invoke the model, build the response, and drain the
cleanup registry on every exit path. -/
def handle_request (m : ServerModel) (fs : Filesystem)
    (setup_time run_time : ℚ) (form : List (String × String))
    (files : List (String × Nat)) : HandlerResult :=
  match collectInputs form files with
  | Except.error msg =>
      { outcome := Except.ok (abort400 msg), executed := [], stderr := [] }
  | Except.ok raw =>
      match m.schema with
      | some _ =>
          let (cl, vres) := m.validate raw
          match vres with
          | Except.error e =>
              let (ids, errs) := drainCleanups cl
              { outcome := Except.ok (abort400 e)
                executed := ids, stderr := errs }
          | Except.ok inputs => runPhase m fs setup_time run_time cl inputs
      | none =>
          runPhase m fs setup_time run_time []
            (raw.map (fun p => (p.1, ConvVal.raw p.2)))

/-- The body of the `/help` loop for one field: the `arg` dict in its
construction order.  `help` is emitted only when truthy (`if spec.help:`),
`default` exactly when it is not `UNSPECIFIED`, `min`/`max`/`options`
exactly when they are not `None`, each rendered through `str(...)`. -/
def helpArg (spec : InputSpec) : List (String × Json) :=
  let arg := [("type", Json.str (get_type_name spec.type))]
  let arg := match spec.help with
    | some h => if h = "" then arg else arg ++ [("help", Json.str h)]
    | none => arg
  let arg := match spec.default with
    | some v => arg ++ [("default", Json.str (pyStr v))]
    | none => arg
  let arg := match spec.min with
    | some v => arg ++ [("min", Json.str (pyStr v))]
    | none => arg
  let arg := match spec.max with
    | some v => arg ++ [("max", Json.str (pyStr v))]
    | none => arg
  match spec.options with
  | some os => arg ++ [("options", Json.arr (os.map (fun o => Json.str (pyStr o))))]
  | none => arg

/-- The `args` dict built by `/help`: one entry per schema field, in
declaration order. -/
def helpArgs (specs : List (String × InputSpec)) : List (String × Json) :=
  specs.map (fun p => (p.1, Json.obj (helpArg p.2)))

/-- The `/help` endpoint: `jsonify({"arguments": args})`, where `args` is
empty when the model's predict function carries no `_inputs` schema. -/
def help (m : ServerModel) : HttpResponse :=
  { status := 200
    contentType := "application/json"
    body := Body.json (Json.obj [("arguments",
      Json.obj (match m.schema with
        | some specs => helpArgs specs
        | none => []))])
    headers := [] }

/-- The `/ping` endpoint. -/
def ping : HttpResponse :=
  { status := 200, contentType := "text/plain"
    body := Body.text "PONG", headers := [] }

/-- The result of routing one request. -/
inductive RouteResult where
  | handled (r : HandlerResult)
  | simple (r : HttpResponse)
  | notFound

/-- The Flask route table of `make_app`: `/predict` and `/infer` (deprecated
alias) are bound to the same `handle_request` closure for POST; `/ping` and
`/help` are GET routes. -/
def dispatch (m : ServerModel) (fs : Filesystem) (setup_time run_time : ℚ)
    (path method : String) (form : List (String × String))
    (files : List (String × Nat)) : RouteResult :=
  if (path = "/predict" ∨ path = "/infer") ∧ method = "POST" then
    RouteResult.handled (handle_request m fs setup_time run_time form files)
  else if path = "/ping" ∧ method = "GET" then
    RouteResult.simple ping
  else if path = "/help" ∧ method = "GET" then
    RouteResult.simple (help m)
  else
    RouteResult.notFound

/-- Look a key up in an ordered JSON-object field list. -/
def getKey (k : String) : List (String × Json) → Option Json
  | [] => none
  | (k', v) :: rest => if k' = k then some v else getKey k rest

/-- Replace a cleanup callback by one that always returns normally. -/
def pureC (c : Cleanup) : Cleanup := { c with outcome := none }

/-- The same server model with every registered cleanup callback made
non-raising; used to state that callback failures cannot alter the
response. -/
def pureCleanups (m : ServerModel) : ServerModel :=
  { m with
    validate := fun raw => ((m.validate raw).1.map pureC, (m.validate raw).2)
    run := fun inputs => ((m.run inputs).1.map pureC, (m.run inputs).2) }

/-- A concrete filesystem with one readable file. -/
def exFs : Filesystem := fun p => if p = "file.bin" then some [1, 2, 3] else none

/-- A concrete model declaring no input schema. -/
def noSchemaModel : ServerModel :=
  { schema := none
    validate := fun raw => ([], Except.ok (raw.map (fun p => (p.1, ConvVal.raw p.2))))
    run := fun _ => ([], Except.ok (PredResult.str "ok")) }

/-- A concrete schema field: integer, no help, no default. -/
def countSpec : InputSpec :=
  { type := TypeTag.int, help := none, default := none
    min := some (PyVal.int 1), max := some (PyVal.int 10), options := none }

/-- A concrete schema field whose declared default is the empty string. -/
def emptyDefaultSpec : InputSpec :=
  { type := TypeTag.str, help := some "some text", default := some (PyVal.str "")
    min := none, max := none, options := none }

/-- A concrete schema field whose declared help text is the empty string. -/
def emptyHelpSpec : InputSpec :=
  { type := TypeTag.str, help := some "", default := none
    min := none, max := none, options := none }

/-- A concrete model whose validation capability always rejects, after
registering one cleanup callback that itself raises. -/
def failValidateModel : ServerModel :=
  { schema := some [("count", countSpec)]
    validate := fun _ =>
      ([{ id := 0, outcome := some "unlink failed" }],
        Except.error ("count is required"))
    run := fun _ => ([], Except.ok (PredResult.str "ok")) }

/-- A concrete model whose single field declares an empty-string default and
non-empty help text. -/
def emptyDefaultModel : ServerModel :=
  { schema := some [("text", emptyDefaultSpec)]
    validate := fun raw => ([], Except.ok (raw.map (fun p => (p.1, ConvVal.raw p.2))))
    run := fun _ => ([], Except.ok (PredResult.str "ok")) }

theorem mem_keys_dictInsert {α : Type} (m : List (String × α)) (k a : String) (v : α) :
    a ∈ (dictInsert m k v).map Prod.fst ↔ a ∈ m.map Prod.fst ∨ a = k := by
  unfold dictInsert
  split
  · rename_i h
    simp only [List.any_eq_true, decide_eq_true_eq] at h
    obtain ⟨p, hp, hpk⟩ := h
    have hk : k ∈ m.map Prod.fst := List.mem_map.mpr ⟨p, hp, hpk⟩
    have hkeys : (m.map fun q => if q.1 = k then (k, v) else q).map Prod.fst
        = m.map Prod.fst := by
      rw [List.map_map]
      refine List.map_congr_left ?_
      intro q _
      by_cases hqk : q.1 = k
      · simp [hqk]
      · simp [hqk]
    rw [hkeys]
    exact ⟨Or.inl, fun h' => h'.elim id (fun ha => ha ▸ hk)⟩
  · simp

theorem mem_keys_collectForm_aux (form : List (String × String)) (a : String) :
    ∀ m : List (String × RawVal),
      a ∈ (form.foldl (fun acc p => dictInsert acc p.1 (RawVal.str p.2)) m).map Prod.fst ↔
        a ∈ m.map Prod.fst ∨ a ∈ form.map Prod.fst := by
  induction form with
  | nil => simp
  | cons p rest ih =>
    intro m
    simp only [List.foldl_cons, ih, mem_keys_dictInsert, List.map_cons, List.mem_cons]
    tauto

theorem mem_keys_collectForm (form : List (String × String)) (a : String) :
    a ∈ (collectForm form).map Prod.fst ↔ a ∈ form.map Prod.fst := by
  unfold collectForm
  rw [mem_keys_collectForm_aux]
  simp

theorem collectFiles_dup (files : List (String × Nat)) :
    ∀ m : List (String × RawVal),
      (files.map Prod.fst).Nodup →
      (∃ k, k ∈ files.map Prod.fst ∧ k ∈ m.map Prod.fst) →
      ∃ k, k ∈ files.map Prod.fst ∧ k ∈ m.map Prod.fst ∧
        collectFiles m files =
          Except.error ("Duplicated argument name in form and files: " ++ k) := by
  induction files with
  | nil =>
    intro m _ hsh
    obtain ⟨k, hk, _⟩ := hsh
    simp at hk
  | cons p rest ih =>
    intro m hnodup hsh
    obtain ⟨k₀, f⟩ := p
    cases hc : m.any (fun q => q.1 = k₀) with
    | true =>
      have hc' := hc
      simp only [List.any_eq_true, decide_eq_true_eq] at hc'
      obtain ⟨q, hq, hqe⟩ := hc'
      refine ⟨k₀, by simp, List.mem_map.mpr ⟨q, hq, hqe⟩, ?_⟩
      simp only [collectFiles]
      rw [if_pos hc]
    | false =>
      have hin : k₀ ∉ m.map Prod.fst := by
        intro hmem
        obtain ⟨q, hq, hqe⟩ := List.mem_map.mp hmem
        have hany : m.any (fun q => q.1 = k₀) = true :=
          List.any_eq_true.mpr ⟨q, hq, decide_eq_true hqe⟩
        rw [hc] at hany
        exact Bool.false_ne_true hany
      simp only [List.map_cons, List.nodup_cons] at hnodup
      obtain ⟨hk₀, hnodup'⟩ := hnodup
      obtain ⟨k, hkfiles, hkm⟩ := hsh
      have hkrest : k ∈ rest.map Prod.fst := by
        rcases (by simpa using hkfiles : k = k₀ ∨ k ∈ rest.map Prod.fst) with rfl | h
        · exact absurd hkm hin
        · exact h
      obtain ⟨k₁, hk₁rest, hk₁m', heq⟩ :=
        ih (dictInsert m k₀ (RawVal.file f)) hnodup'
          ⟨k, hkrest, (mem_keys_dictInsert m k₀ k (RawVal.file f)).mpr (Or.inl hkm)⟩
      have hk₁m : k₁ ∈ m.map Prod.fst := by
        rcases (mem_keys_dictInsert m k₀ k₁ (RawVal.file f)).mp hk₁m' with h | rfl
        · exact h
        · exact absurd hk₁rest hk₀
      refine ⟨k₁, by simp [hk₁rest], hk₁m, ?_⟩
      simp only [collectFiles]
      rw [if_neg (by simp [hc]), heq]

theorem drainCleanups_spec (cs : List Cleanup) :
    drainCleanups cs =
      (cs.map Cleanup.id,
       cs.filterMap (fun c => c.outcome.map
         (fun e => "Cleanup function caught error: " ++ e))) := by
  induction cs with
  | nil => rfl
  | cons c rest ih =>
    cases hc : c.outcome <;> simp [drainCleanups, ih, hc]

theorem drainCleanups_pure (cs : List Cleanup) :
    drainCleanups (cs.map pureC) = (cs.map Cleanup.id, []) := by
  rw [drainCleanups_spec]
  simp [pureC, List.map_map, List.filterMap_map, Function.comp]

theorem runPhase_pure (m : ServerModel) (fs : Filesystem) (st rt : ℚ)
    (registered : List Cleanup) (inputs : List (String × ConvVal)) :
    (runPhase (pureCleanups m) fs st rt (registered.map pureC) inputs).outcome =
      (runPhase m fs st rt registered inputs).outcome ∧
    (runPhase (pureCleanups m) fs st rt (registered.map pureC) inputs).executed =
      (runPhase m fs st rt registered inputs).executed := by
  unfold runPhase
  cases hr : m.run inputs with
  | mk cl rres =>
    have hr' : (pureCleanups m).run inputs = (cl.map pureC, rres) := by
      simp [pureCleanups, hr]
    have h1 : drainCleanups (registered.map pureC ++ cl.map pureC) =
        ((registered ++ cl).map Cleanup.id, []) := by
      rw [← List.map_append, drainCleanups_pure]
    have h2 : (drainCleanups (registered ++ cl)).1 =
        (registered ++ cl).map Cleanup.id := by
      rw [drainCleanups_spec]
    cases rres <;> simp [hr, hr', h1, h2]

theorem handle_request_pure (m : ServerModel) (fs : Filesystem) (st rt : ℚ)
    (form : List (String × String)) (files : List (String × Nat)) :
    (handle_request (pureCleanups m) fs st rt form files).outcome =
      (handle_request m fs st rt form files).outcome ∧
    (handle_request (pureCleanups m) fs st rt form files).executed =
      (handle_request m fs st rt form files).executed := by
  unfold handle_request
  cases hc : collectInputs form files with
  | error msg => exact ⟨rfl, rfl⟩
  | ok raw =>
    have hs : (pureCleanups m).schema = m.schema := rfl
    rw [hs]
    cases hm : m.schema with
    | none => exact runPhase_pure m fs st rt [] (raw.map (fun p => (p.1, ConvVal.raw p.2)))
    | some specs =>
      cases hv : m.validate raw with
      | mk cl vres =>
        have hv' : (pureCleanups m).validate raw = (cl.map pureC, vres) := by
          simp [pureCleanups, hv]
        cases vres with
        | error e =>
          simp only [hv, hv']
          constructor
          · trivial
          · show (drainCleanups (cl.map pureC)).1 = (drainCleanups cl).1
            rw [drainCleanups_pure, drainCleanups_spec]
        | ok inputs =>
          simp only [hv, hv']
          exact runPhase_pure m fs st rt cl inputs

theorem helpArgs_keys (specs : List (String × InputSpec)) :
    (helpArgs specs).map Prod.fst = specs.map Prod.fst := by
  induction specs with
  | nil => rfl
  | cons p rest ih => simp_all [helpArgs, List.map_cons]

theorem getKey_type_helpArg (spec : InputSpec) :
    getKey "type" (helpArg spec) = some (Json.str (get_type_name spec.type)) := by
  obtain ⟨ty, hl, df, mn, mx, os⟩ := spec
  rcases hl with _ | h
  · cases df <;> cases mn <;> cases mx <;> cases os <;> simp [helpArg, getKey]
  · by_cases hh : h = "" <;>
      cases df <;> cases mn <;> cases mx <;> cases os <;> simp [helpArg, getKey, hh]

theorem getKey_help_helpArg (spec : InputSpec) (h : String)
    (hd : spec.help = some h) (hne : h ≠ "") :
    getKey "help" (helpArg spec) = some (Json.str h) := by
  obtain ⟨ty, hl, df, mn, mx, os⟩ := spec
  cases hd
  cases df <;> cases mn <;> cases mx <;> cases os <;> simp [helpArg, getKey, hne]

theorem getKey_default_helpArg (spec : InputSpec) :
    getKey "default" (helpArg spec) =
      Option.map (fun v => Json.str (pyStr v)) spec.default := by
  obtain ⟨ty, hl, df, mn, mx, os⟩ := spec
  rcases hl with _ | h
  · cases df <;> cases mn <;> cases mx <;> cases os <;> simp [helpArg, getKey]
  · by_cases hh : h = "" <;>
      cases df <;> cases mn <;> cases mx <;> cases os <;> simp [helpArg, getKey, hh]

theorem getKey_min_helpArg (spec : InputSpec) :
    getKey "min" (helpArg spec) =
      Option.map (fun v => Json.str (pyStr v)) spec.min := by
  obtain ⟨ty, hl, df, mn, mx, os⟩ := spec
  rcases hl with _ | h
  · cases df <;> cases mn <;> cases mx <;> cases os <;> simp [helpArg, getKey]
  · by_cases hh : h = "" <;>
      cases df <;> cases mn <;> cases mx <;> cases os <;> simp [helpArg, getKey, hh]

theorem getKey_max_helpArg (spec : InputSpec) :
    getKey "max" (helpArg spec) =
      Option.map (fun v => Json.str (pyStr v)) spec.max := by
  obtain ⟨ty, hl, df, mn, mx, os⟩ := spec
  rcases hl with _ | h
  · cases df <;> cases mn <;> cases mx <;> cases os <;> simp [helpArg, getKey]
  · by_cases hh : h = "" <;>
      cases df <;> cases mn <;> cases mx <;> cases os <;> simp [helpArg, getKey, hh]

theorem getKey_options_helpArg (spec : InputSpec) :
    getKey "options" (helpArg spec) =
      Option.map (fun os => Json.arr (os.map (fun o => Json.str (pyStr o))))
        spec.options := by
  obtain ⟨ty, hl, df, mn, mx, os⟩ := spec
  rcases hl with _ | h
  · cases df <;> cases mn <;> cases mx <;> cases os <;> simp [helpArg, getKey]
  · by_cases hh : h = "" <;>
      cases df <;> cases mn <;> cases mx <;> cases os <;> simp [helpArg, getKey, hh]

theorem getKey_helpArgs (specs : List (String × InputSpec)) (name : String)
    (spec : InputSpec) (hmem : (name, spec) ∈ specs)
    (hnodup : (specs.map Prod.fst).Nodup) :
    getKey name (helpArgs specs) = some (Json.obj (helpArg spec)) := by
  induction specs with
  | nil => cases hmem
  | cons p rest ih =>
    obtain ⟨n, s⟩ := p
    simp only [List.map_cons, List.nodup_cons] at hnodup
    obtain ⟨hn, hnodup'⟩ := hnodup
    rcases List.mem_cons.mp hmem with heq | hmem'
    · obtain ⟨rfl, rfl⟩ := Prod.mk.injEq .. ▸ heq
      simp [helpArgs, getKey]
    · have hne : n ≠ name := by
        intro hcon
        exact hn (hcon ▸ List.mem_map.mpr ⟨(name, spec), hmem', rfl⟩)
      simpa [helpArgs, getKey, hne] using ih hmem' hnodup'

/-- C1: the finally block of handle_request calls every registered cleanup
callback exactly once, in registration order, writing each raised error to
stderr without stopping the remaining callbacks; and making every callback
non-raising changes neither the request outcome nor the list of callbacks
that were called, so a raised cleanup error never alters the response. -/
theorem cleanup_drained_and_isolated :
    (∀ cs : List Cleanup,
      drainCleanups cs =
        (cs.map Cleanup.id,
         cs.filterMap (fun c => c.outcome.map
           (fun e => "Cleanup function caught error: " ++ e)))) ∧
    (∀ (m : ServerModel) (fs : Filesystem) (st rt : ℚ)
       (form : List (String × String)) (files : List (String × Nat)),
      (handle_request (pureCleanups m) fs st rt form files).outcome =
        (handle_request m fs st rt form files).outcome ∧
      (handle_request (pureCleanups m) fs st rt form files).executed =
        (handle_request m fs st rt form files).executed) :=
  ⟨drainCleanups_spec, handle_request_pure⟩

/-- C2: a POST whose form-field keys and file keys share a key yields a 400
response naming a shared key, with no cleanup activity and a result that
does not depend on the validation or prediction capability. -/
theorem duplicate_key_rejected (m : ServerModel) (fs : Filesystem)
    (st rt : ℚ) (form : List (String × String)) (files : List (String × Nat))
    (hnodup : (files.map Prod.fst).Nodup)
    (hshared : ∃ k, k ∈ form.map Prod.fst ∧ k ∈ files.map Prod.fst) :
    ∃ k, k ∈ form.map Prod.fst ∧ k ∈ files.map Prod.fst ∧
      handle_request m fs st rt form files =
        { outcome := Except.ok (abort400
            ("Duplicated argument name in form and files: " ++ k))
          executed := [], stderr := [] } := by
  obtain ⟨k, hkform, hkfiles⟩ := hshared
  obtain ⟨k₁, hk₁files, hk₁form', herr⟩ :=
    collectFiles_dup files (collectForm form) hnodup
      ⟨k, hkfiles, (mem_keys_collectForm form k).mpr hkform⟩
  refine ⟨k₁, (mem_keys_collectForm form k₁).mp hk₁form', hk₁files, ?_⟩
  unfold handle_request collectInputs
  rw [herr]

/-- C2 witness. -/
theorem duplicate_key_rejected_witness :
    handle_request noSchemaModel exFs 1 2 [("a", "x")] [("a", 0)] =
      { outcome := Except.ok (abort400
          "Duplicated argument name in form and files: a")
        executed := [], stderr := [] } := by
  obtain ⟨k, hk, -, heq⟩ :=
    duplicate_key_rejected noSchemaModel exFs 1 2 [("a", "x")] [("a", 0)]
      (by simp) ⟨"a", by simp, by simp⟩
  have hka : k = "a" := by simpa using hk
  rw [hka] at heq
  exact heq

/-- C3: when the model declares an input schema and validation raises, the
handler answers 400 carrying the validation error message, drains exactly
the cleanups registered during the failed conversion, and the prediction
capability is never consulted. -/
theorem validation_error_rejected (m : ServerModel) (fs : Filesystem)
    (st rt : ℚ) (form : List (String × String)) (files : List (String × Nat))
    (raw : List (String × RawVal)) (specs : List (String × InputSpec))
    (cl : List Cleanup) (e : String)
    (hschema : m.schema = some specs)
    (hcollect : collectInputs form files = Except.ok raw)
    (hval : m.validate raw = (cl, Except.error e)) :
    handle_request m fs st rt form files =
      { outcome := Except.ok (abort400 e)
        executed := (drainCleanups cl).1
        stderr := (drainCleanups cl).2 } ∧
    ∀ run', handle_request { m with run := run' } fs st rt form files =
      handle_request m fs st rt form files := by
  have main : ∀ m' : ServerModel, m'.schema = some specs →
      m'.validate = m.validate →
      handle_request m' fs st rt form files =
        { outcome := Except.ok (abort400 e)
          executed := (drainCleanups cl).1
          stderr := (drainCleanups cl).2 } := by
    intro m' hs hv
    unfold handle_request
    simp only [hcollect, hs, hv, hval]
  exact ⟨main m hschema rfl,
    fun run' => (main { m with run := run' } hschema rfl).trans
      (main m hschema rfl).symm⟩

/-- C3 witness. -/
theorem validation_error_rejected_witness :
    handle_request failValidateModel exFs 1 2 [] [] =
      { outcome := Except.ok (abort400 "count is required")
        executed := (drainCleanups [{ id := 0, outcome := some "unlink failed" }]).1
        stderr := (drainCleanups [{ id := 0, outcome := some "unlink failed" }]).2 } :=
  (validation_error_rejected failValidateModel exFs 1 2 [] [] []
    [("count", countSpec)] [{ id := 0, outcome := some "unlink failed" }]
    "count is required" rfl rfl rfl).1

/-- C4: create_response is a closed three-way dispatch: a path result yields
the bytes of the file as a binary download, a string result yields a
text/plain body equal to the string, and any other value yields a JSON body
structurally equal to the value. -/
theorem create_response_three_way (fs : Filesystem) (st rt : ℚ) :
    (∀ (p : String) (bs : List Nat), fs p = some bs →
      create_response fs (PredResult.path p) st rt =
        Except.ok { status := 200, contentType := "application/octet-stream"
                    body := Body.bytes bs
                    headers := [("X-Setup-Time", toString st),
                                ("X-Run-Time", toString rt)] }) ∧
    (∀ s : String,
      create_response fs (PredResult.str s) st rt =
        Except.ok { status := 200, contentType := "text/plain"
                    body := Body.text s
                    headers := [("X-Setup-Time", toString st),
                                ("X-Run-Time", toString rt)] }) ∧
    (∀ j : Json,
      create_response fs (PredResult.other j) st rt =
        Except.ok { status := 200, contentType := "application/json"
                    body := Body.json j
                    headers := [("X-Setup-Time", toString st),
                                ("X-Run-Time", toString rt)] }) := by
  refine ⟨fun p bs hp => ?_, fun s => ?_, fun j => ?_⟩
  · simp [create_response, sendFile, hp, Except.map, setHeader]
  · rfl
  · rfl

/-- C4 witness. -/
theorem create_response_three_way_witness :
    create_response exFs (PredResult.path "file.bin") 1 2 =
      Except.ok { status := 200, contentType := "application/octet-stream"
                  body := Body.bytes [1, 2, 3]
                  headers := [("X-Setup-Time", toString (1 : ℚ)),
                              ("X-Run-Time", toString (2 : ℚ))] } :=
  (create_response_three_way exFs 1 2).1 "file.bin" [1, 2, 3] rfl

/-- C5: every successful create_response, whichever branch was taken,
carries an X-Setup-Time and an X-Run-Time header holding the rendering of
the setup-time and run-time scalars. -/
theorem timing_headers_present (fs : Filesystem) (result : PredResult)
    (st rt : ℚ) (resp : HttpResponse)
    (h : create_response fs result st rt = Except.ok resp) :
    ("X-Setup-Time", toString st) ∈ resp.headers ∧
    ("X-Run-Time", toString rt) ∈ resp.headers := by
  cases result with
  | path p =>
    cases hp : fs p with
    | none => simp [create_response, sendFile, hp, Except.map] at h
    | some bs =>
      simp only [create_response, sendFile, hp, setHeader, Except.map,
        Except.ok.injEq] at h
      subst h
      simp
  | str s =>
    simp only [create_response, setHeader, Except.map, Except.ok.injEq] at h
    subst h
    simp
  | other j =>
    simp only [create_response, setHeader, Except.map, Except.ok.injEq] at h
    subst h
    simp

/-- C5 witness. -/
theorem timing_headers_present_witness :
    ("X-Setup-Time", toString (1 : ℚ)) ∈
      (HttpResponse.mk 200 "text/plain" (Body.text "hi")
        [("X-Setup-Time", toString (1 : ℚ)),
         ("X-Run-Time", toString (2 : ℚ))]).headers ∧
    ("X-Run-Time", toString (2 : ℚ)) ∈
      (HttpResponse.mk 200 "text/plain" (Body.text "hi")
        [("X-Setup-Time", toString (1 : ℚ)),
         ("X-Run-Time", toString (2 : ℚ))]).headers :=
  timing_headers_present exFs (PredResult.str "hi") 1 2 _ rfl

/-- C6: in the /help document, the entry of a declared field carries a
default key exactly when the field default is not the UNSPECIFIED sentinel,
holding the str rendering of the declared default; in particular a declared
empty-string default is emitted as the empty string, and an undeclared
default yields no default key at all. -/
theorem help_default_key (m : ServerModel) (specs : List (String × InputSpec))
    (name : String) (spec : InputSpec)
    (hschema : m.schema = some specs)
    (hmem : (name, spec) ∈ specs)
    (hnodup : (specs.map Prod.fst).Nodup) :
    (help m).body = Body.json (Json.obj [("arguments", Json.obj (helpArgs specs))]) ∧
    getKey name (helpArgs specs) = some (Json.obj (helpArg spec)) ∧
    getKey "default" (helpArg spec) =
      Option.map (fun v => Json.str (pyStr v)) spec.default :=
  ⟨by simp [help, hschema], getKey_helpArgs specs name spec hmem hnodup,
   getKey_default_helpArg spec⟩

/-- C6 witness: a field declaring the empty string as default. -/
theorem help_default_key_witness :
    getKey "default" (helpArg emptyDefaultSpec) =
      Option.map (fun v => Json.str (pyStr v)) emptyDefaultSpec.default ∧
    getKey "default" (helpArg countSpec) =
      Option.map (fun v => Json.str (pyStr v)) countSpec.default :=
  ⟨(help_default_key emptyDefaultModel [("text", emptyDefaultSpec)] "text"
      emptyDefaultSpec rfl (by simp) (by simp)).2.2,
   (help_default_key failValidateModel [("count", countSpec)] "count"
      countSpec rfl (by simp) (by simp)).2.2⟩

/-- C7 counterexample: a field whose declared help text is the empty string
has no help key in its /help entry, so help text is not emitted for every
declared help value. -/
theorem help_empty_text_omitted :
    emptyHelpSpec.help = some "" ∧ getKey "help" (helpArg emptyHelpSpec) = none :=
  ⟨rfl, rfl⟩

/-- C7 (amended): the /help document lists the fields in declaration order;
each entry carries the schema type name of the field, its help text whenever
the declared help text is non-empty (an empty declared help text is
omitted), and min, max and options rendered as strings whenever each is
declared. -/
theorem help_field_rendering :
    (∀ specs : List (String × InputSpec),
      (helpArgs specs).map Prod.fst = specs.map Prod.fst) ∧
    (∀ spec : InputSpec,
      getKey "type" (helpArg spec) = some (Json.str (get_type_name spec.type))) ∧
    (∀ (spec : InputSpec) (h : String), spec.help = some h → h ≠ "" →
      getKey "help" (helpArg spec) = some (Json.str h)) ∧
    (∀ spec : InputSpec,
      getKey "min" (helpArg spec) =
        Option.map (fun v => Json.str (pyStr v)) spec.min) ∧
    (∀ spec : InputSpec,
      getKey "max" (helpArg spec) =
        Option.map (fun v => Json.str (pyStr v)) spec.max) ∧
    (∀ spec : InputSpec,
      getKey "options" (helpArg spec) =
        Option.map (fun os => Json.arr (os.map (fun o => Json.str (pyStr o))))
          spec.options) :=
  ⟨helpArgs_keys, getKey_type_helpArg, getKey_help_helpArg,
   getKey_min_helpArg, getKey_max_helpArg, getKey_options_helpArg⟩

/-- C7 witness: a field with non-empty help text has it emitted. -/
theorem help_field_rendering_witness :
    getKey "help" (helpArg emptyDefaultSpec) = some (Json.str "some text") :=
  help_field_rendering.2.2.1 emptyDefaultSpec "some text" rfl (by decide)

/-- C8: when the prediction capability carries no input schema, /help is a
200 response with body the arguments document on an empty dict, and its
value does not depend on the validation or prediction capability. -/
theorem help_without_schema (m : ServerModel) (h : m.schema = none) :
    help m = { status := 200, contentType := "application/json"
               body := Body.json (Json.obj [("arguments", Json.obj [])])
               headers := [] } ∧
    ∀ m' : ServerModel, m'.schema = m.schema → help m' = help m := by
  constructor
  · simp [help, h]
  · intro m' h'
    simp [help, h, h'.trans h]

/-- C8 witness. -/
theorem help_without_schema_witness :
    help noSchemaModel =
      { status := 200, contentType := "application/json"
        body := Body.json (Json.obj [("arguments", Json.obj [])])
        headers := [] } :=
  (help_without_schema noSchemaModel rfl).1

/-- C9: a POST routed to /infer produces exactly the same result as the same
POST routed to /predict: both routes are bound to the same handler. -/
theorem infer_alias_of_predict (m : ServerModel) (fs : Filesystem)
    (st rt : ℚ) (form : List (String × String)) (files : List (String × Nat)) :
    dispatch m fs st rt "/infer" "POST" form files =
      dispatch m fs st rt "/predict" "POST" form files := by
  simp [dispatch]

/-- C10: the create_response dispatch is decided by the runtime type of the
result alone: a string result yields a text/plain response equal to the
string even when the string names a readable file in the filesystem, and a
binary-bytes body arises only from a path-typed result. -/
theorem dispatch_by_runtime_type (fs : Filesystem) (st rt : ℚ) :
    (∀ (s : String) (bs : List Nat), fs s = some bs →
      create_response fs (PredResult.str s) st rt =
        Except.ok { status := 200, contentType := "text/plain"
                    body := Body.text s
                    headers := [("X-Setup-Time", toString st),
                                ("X-Run-Time", toString rt)] }) ∧
    (∀ (result : PredResult) (resp : HttpResponse) (bs : List Nat),
      create_response fs result st rt = Except.ok resp →
      resp.body = Body.bytes bs → ∃ p, result = PredResult.path p) := by
  constructor
  · intro s bs _
    rfl
  · intro result resp bs h hb
    cases result with
    | path p => exact ⟨p, rfl⟩
    | str s =>
      simp only [create_response, setHeader, Except.map, Except.ok.injEq] at h
      subst h
      simp at hb
    | other j =>
      simp only [create_response, setHeader, Except.map, Except.ok.injEq] at h
      subst h
      simp at hb

/-- C10 witness: the string result names a file that exists in the
filesystem, yet the response is text/plain with the string as body. -/
theorem dispatch_by_runtime_type_witness :
    create_response exFs (PredResult.str "file.bin") 1 2 =
      Except.ok { status := 200, contentType := "text/plain"
                  body := Body.text "file.bin"
                  headers := [("X-Setup-Time", toString (1 : ℚ)),
                              ("X-Run-Time", toString (2 : ℚ))] } :=
  (dispatch_by_runtime_type exFs 1 2).1 "file.bin" [1, 2, 3] rfl

end Cog
